import Mathlib

/-!
Shallow embedding of the actor state-machine and combat-resolution pipeline of
`redeemer-rs` (src/character.rs, src/enemy.rs, src/raycasts.rs, src/hud.rs,
src/class.rs), together with theorems settling the frozen claims about it.

Conventions of the embedding:
* Rust `f32` values are modelled as `ℚ`; the relevant code only compares,
  clamps, scales and ceils, so exact rationals are a faithful model of the
  arithmetic the claims mention.
* Bevy `Timer` (mode `Once`) is modelled with its `duration`, saturating
  `elapsed` and its `finished` flag, with `tick` / `reset` / `set_duration`
  mirroring Bevy's semantics.
* An ECS component that may be absent is an `Option`; a marker component is a
  `Bool`.  Bevy's `Added<T>` change detection is modelled by passing the
  previous tick's component state alongside the current one.
* Entity ids are `ℕ`.
-/

namespace Redeemer

/-- Rust `f32::clamp(lo, hi)`: `min (max x lo) hi`. -/
def rclamp (x lo hi : ℚ) : ℚ := min (max x lo) hi

/-- Rust `f32::signum` restricted to non-NaN inputs: `1` for `x ≥ 0`
(positive zero included), `-1` for `x < 0`. -/
def fsignum (x : ℚ) : ℚ := if x < 0 then -1 else 1

/-- Two-dimensional vector over ℚ (model of glam `Vec2`). -/
structure Vec2 where
  x : ℚ
  y : ℚ
deriving DecidableEq, Repr

/-- Bevy `Timer` in `TimerMode::Once`: duration, saturating elapsed time and
the `finished` flag that is updated only by `tick`. -/
structure Timer where
  duration : ℚ
  elapsed : ℚ
  finished : Bool
deriving DecidableEq, Repr

/-- `Timer::from_seconds(d, TimerMode::Once)`. -/
def Timer.fromSeconds (d : ℚ) : Timer := ⟨d, 0, false⟩

/-- `Timer::tick(delta)` for a `Once` timer: elapsed saturates at the
duration and `finished` becomes true once `elapsed ≥ duration`. -/
def Timer.tick (t : Timer) (dt : ℚ) : Timer :=
  let e := min (t.elapsed + dt) t.duration
  ⟨t.duration, e, decide (t.duration ≤ e)⟩

/-- `Timer::reset`: zero elapsed, `finished` cleared. -/
def Timer.reset (t : Timer) : Timer := ⟨t.duration, 0, false⟩

/-- `Timer::set_duration`: only the duration field changes. -/
def Timer.setDuration (t : Timer) (d : ℚ) : Timer := ⟨d, t.elapsed, t.finished⟩

/-! ## Damage mitigation (src/enemy.rs `apply_melee_damage_to_enemies`,
src/raycasts.rs `apply_melee_damage_to_player_stats`) -/

/-- Defense-mitigated damage as computed in `apply_melee_damage_to_enemies`:
the target's class defense (`0.0` when no `EnemyClass` is attached) is
clamped to `[0, 0.95]`, the raw damage scaled by `1 - defense`, floored at
`0` and ceiled. -/
def enemyMitigatedDamage (rawDamage : ℤ) (classDefense : Option ℚ) : ℚ :=
  let defense := rclamp (classDefense.getD 0) 0 (95/100)
  let reduced := (rawDamage : ℚ) * (1 - defense)
  ((⌈max reduced 0⌉ : ℤ) : ℚ)

/-- `stats.health = (stats.health - dmg).max(0.0)` for an enemy hit. -/
def enemyHealthAfterHit (health : ℚ) (rawDamage : ℤ) (classDefense : Option ℚ) : ℚ :=
  max (health - enemyMitigatedDamage rawDamage classDefense) 0

/-- Defense-mitigated damage as computed in
`apply_melee_damage_to_player_stats` (same formula, reading the defense from
the target's `PlayerClass`, `0.0` when absent). -/
def playerMitigatedDamage (rawDamage : ℤ) (classDefense : Option ℚ) : ℚ :=
  let defense := rclamp (classDefense.getD 0) 0 (95/100)
  let reduced := (rawDamage : ℚ) * (1 - defense)
  ((⌈max reduced 0⌉ : ℤ) : ℚ)

/-- Damage formula written exactly as the specification words it:
`ceil(max(0, raw_damage × (1 − defense)))` for a defense already in
`[0, 0.95]`. -/
def specMitigatedDamage (rawDamage : ℤ) (defense : ℚ) : ℚ :=
  ((⌈max 0 ((rawDamage : ℚ) * (1 - defense))⌉ : ℤ) : ℚ)

/-! ## Player locomotion/attack state machine (src/character.rs
`spawn_main_character`) -/

/-- The eleven states registered on the player's `StateMachine`: the six
locomotion marker components and the five attack-variant marker components.
`seldom_state` keeps exactly one of them on the entity, removing the old
state component when a transition inserts the new one. -/
inductive PState
  | idle | walking | running | jumping | sprintJumping | falling
  | idleAttack | walkingAttack | runningAttack | jumpingAttack | fallingAttack
deriving DecidableEq, Repr

/-- Per-tick signals the transition triggers read: the resolved `Move` axis,
the `Sprint` hold, the `Jump`/`Attack` just-pressed edges, the state of the
`AttackCooldown` timer, the presence of the `AttackDone` marker, the linear
velocity, and whether the `CollidingEntities` contact set is non-empty. -/
structure TickInputs where
  axis : ℚ
  sprintPressed : Bool
  jumpJustPressed : Bool
  attackJustPressed : Bool
  cooldownFinished : Bool
  attackDone : Bool
  vx : ℚ
  vy : ℚ
  touching : Bool

/-- Trigger `walking`: `|axis| ≥ 0.5` and sprint not held. -/
def walkingTrig (i : TickInputs) : Bool :=
  decide (|i.axis| ≥ 1/2) && !i.sprintPressed

/-- Trigger `sprinting`: `|axis| ≥ 0.5` and sprint held. -/
def sprintingTrig (i : TickInputs) : Bool :=
  decide (|i.axis| ≥ 1/2) && i.sprintPressed

/-- Trigger `stopped_moving`, with its hysteresis early-return: input-opposes-
velocity never counts as stopped; otherwise both input and speed must be
small. -/
def stoppedMovingTrig (i : TickInputs) : Bool :=
  if decide (|i.axis| ≥ 1/10) && decide (|i.vx| > 8) &&
      decide (fsignum i.axis ≠ fsignum i.vx) then
    false
  else
    decide (|i.axis| < 1/10) && decide (|i.vx| < 8)

/-- Trigger `step_off`: the contact set is empty. -/
def stepOffTrig (i : TickInputs) : Bool := !i.touching

/-- Trigger `landed`: touching something, and either the `Falling` component
is present or `vy ≤ 0` (the "landed while still rising slightly" tolerance).
`isFalling` is the presence of the `Falling` marker on the entity. -/
def landedTrig (i : TickInputs) (isFalling : Bool) : Bool :=
  i.touching && (isFalling || decide (i.vy ≤ 0))

/-- Trigger `landed_walking`: `landed` and the walking input condition. -/
def landedWalkingTrig (i : TickInputs) (isFalling : Bool) : Bool :=
  landedTrig i isFalling && (decide (|i.axis| ≥ 1/2) && !i.sprintPressed)

/-- Trigger `landed_sprinting`: `landed` and the sprinting input condition. -/
def landedSprintingTrig (i : TickInputs) (isFalling : Bool) : Bool :=
  landedTrig i isFalling && (decide (|i.axis| ≥ 1/2) && i.sprintPressed)

/-- Trigger `apex`: airborne (contact set empty) and `vy ≤ 0`. -/
def apexTrig (i : TickInputs) : Bool :=
  !i.touching && decide (i.vy ≤ 0)

/-- Trigger `attack_pressed_and_ready`: `Attack` just pressed and the
`AttackCooldown` timer reports finished. -/
def attackReadyTrig (i : TickInputs) : Bool :=
  i.attackJustPressed && i.cooldownFinished

/-- Trigger `attack_finished`: the `AttackDone` marker is present. -/
def attackFinishedTrig (i : TickInputs) : Bool := i.attackDone

/-- Trigger `attack_finished_walking`. -/
def attackFinishedWalkingTrig (i : TickInputs) : Bool :=
  i.attackDone && (decide (|i.axis| ≥ 1/2) && !i.sprintPressed)

/-- Trigger `attack_finished_sprinting`. -/
def attackFinishedSprintingTrig (i : TickInputs) : Bool :=
  i.attackDone && (decide (|i.axis| ≥ 1/2) && i.sprintPressed)

/-- First transition in declaration order whose trigger fires, as
`seldom_state` evaluates them; `none` means the machine stays put. -/
def firstFiring (ts : List (Bool × PState)) : Option PState :=
  match ts with
  | [] => none
  | (b, s) :: rest => if b then some s else firstFiring rest

/-- The player's transition table, state by state, in the exact order the
transitions are registered on the `StateMachine` in `spawn_main_character`.
The `Falling` component is present exactly in state `falling`, which is what
the `landed` trigger's `falling_q` query reads. -/
def machineTransitions (s : PState) (i : TickInputs) : List (Bool × PState) :=
  let isF := s = PState.falling
  match s with
  | .idle =>
      [(i.jumpJustPressed, .jumping),
       (attackReadyTrig i, .idleAttack),
       (sprintingTrig i, .running),
       (walkingTrig i, .walking),
       (stepOffTrig i, .falling)]
  | .walking =>
      [(i.jumpJustPressed, .jumping),
       (attackReadyTrig i, .walkingAttack),
       (sprintingTrig i, .running),
       (stoppedMovingTrig i, .idle),
       (stepOffTrig i, .falling)]
  | .running =>
      [(i.jumpJustPressed, .sprintJumping),
       (attackReadyTrig i, .runningAttack),
       (walkingTrig i, .walking),
       (stoppedMovingTrig i, .idle),
       (stepOffTrig i, .falling)]
  | .jumping =>
      [(attackReadyTrig i, .jumpingAttack),
       (apexTrig i, .falling),
       (landedSprintingTrig i isF, .running),
       (landedWalkingTrig i isF, .walking),
       (landedTrig i isF, .idle)]
  | .sprintJumping =>
      [(attackReadyTrig i, .jumpingAttack),
       (apexTrig i, .falling),
       (landedSprintingTrig i isF, .running),
       (landedWalkingTrig i isF, .walking),
       (landedTrig i isF, .idle)]
  | .falling =>
      [(attackReadyTrig i, .fallingAttack),
       (landedSprintingTrig i isF, .running),
       (landedWalkingTrig i isF, .walking),
       (landedTrig i isF, .idle)]
  | .idleAttack =>
      [(attackFinishedSprintingTrig i, .running),
       (attackFinishedWalkingTrig i, .walking),
       (attackFinishedTrig i, .idle),
       (sprintingTrig i, .runningAttack),
       (walkingTrig i, .walkingAttack),
       (stepOffTrig i, .fallingAttack)]
  | .walkingAttack =>
      [(attackFinishedSprintingTrig i, .running),
       (attackFinishedWalkingTrig i, .walking),
       (attackFinishedTrig i, .idle),
       (sprintingTrig i, .runningAttack),
       (stoppedMovingTrig i, .idleAttack),
       (stepOffTrig i, .fallingAttack)]
  | .runningAttack =>
      [(attackFinishedSprintingTrig i, .running),
       (attackFinishedWalkingTrig i, .walking),
       (attackFinishedTrig i, .idle),
       (walkingTrig i, .walkingAttack),
       (stoppedMovingTrig i, .idleAttack),
       (stepOffTrig i, .fallingAttack)]
  | .jumpingAttack =>
      [(attackFinishedTrig i, .jumping),
       (apexTrig i, .fallingAttack),
       (landedSprintingTrig i isF, .runningAttack),
       (landedWalkingTrig i isF, .walkingAttack),
       (landedTrig i isF, .idleAttack)]
  | .fallingAttack =>
      [(attackFinishedTrig i, .falling),
       (landedSprintingTrig i isF, .runningAttack),
       (landedWalkingTrig i isF, .walkingAttack),
       (landedTrig i isF, .idleAttack)]

/-- One `StateMachine` update: take the first firing transition of the
current state, else stay. -/
def machineNext (s : PState) (i : TickInputs) : PState :=
  (firstFiring (machineTransitions s i)).getD s

/-- The marker-component set the current machine state puts on the entity:
one `Bool` per state marker component. -/
structure StateTags where
  idle : Bool
  walking : Bool
  running : Bool
  jumping : Bool
  sprintJumping : Bool
  falling : Bool
  idleAttack : Bool
  walkingAttack : Bool
  runningAttack : Bool
  jumpingAttack : Bool
  fallingAttack : Bool
deriving DecidableEq, Repr

/-- The tag set held while the machine is in state `s`: exactly that state's
marker component (`seldom_state` removes the previous state's component when
inserting the new one). -/
def tagsOfState (s : PState) : StateTags :=
  { idle := s = .idle
    walking := s = .walking
    running := s = .running
    jumping := s = .jumping
    sprintJumping := s = .sprintJumping
    falling := s = .falling
    idleAttack := s = .idleAttack
    walkingAttack := s = .walkingAttack
    runningAttack := s = .runningAttack
    jumpingAttack := s = .jumpingAttack
    fallingAttack := s = .fallingAttack }

/-- Number of the six locomotion tags present. -/
def locoCount (t : StateTags) : ℕ :=
  t.idle.toNat + t.walking.toNat + t.running.toNat + t.jumping.toNat +
    t.sprintJumping.toNat + t.falling.toNat

/-- Number of the five attack-variant tags present. -/
def attackTagCount (t : StateTags) : ℕ :=
  t.idleAttack.toNat + t.walkingAttack.toNat + t.runningAttack.toNat +
    t.jumpingAttack.toNat + t.fallingAttack.toNat

/-- Whether the state is one of the five attack variants. -/
def isAttackState (s : PState) : Bool :=
  match s with
  | .idleAttack | .walkingAttack | .runningAttack | .jumpingAttack
  | .fallingAttack => true
  | _ => false

/-! ## Jump impulse (src/character.rs `on_added_jumping_set_impulse`) -/

/-- `JUMP_VELOCITY` tuning constant. -/
def JUMP_VELOCITY : ℚ := 520

/-- `on_added_jumping_set_impulse`: the query matches entities with
`Added<Jumping>` or `Added<SprintJumping>` — a `Jumping`/`SprintJumping`
marker present now that was absent on the previous tick — and sets
`vel.y = JUMP_VELOCITY`.  `prev`/`now` are the tag sets on consecutive
ticks. -/
def on_added_jumping_set_impulse (prev now : StateTags) (vel : Vec2) : Vec2 :=
  if (now.jumping && !prev.jumping) || (now.sprintJumping && !prev.sprintJumping)
  then ⟨vel.x, JUMP_VELOCITY⟩
  else vel

/-! ## Player attack timers and cooldown (src/character.rs) -/

/-- `ATTACK_COOLDOWN_S` tuning constant. -/
def ATTACK_COOLDOWN_S : ℚ := 15/100

/-- The `AttackDurationsComp` component: per attack-variant swing duration,
loaded from the animation manifest at spawn. -/
structure AttackDurationsComp where
  idle : ℚ
  walk : ℚ
  run : ℚ
  jump : ℚ
  fall : ℚ
deriving DecidableEq, Repr

/-- The attack-related components on the player entity.  `state` is the
machine state (which of the marker components is on the entity); `attackTimer`
and `cooldown` are the optional `AttackTimer` / `AttackCooldown` timer
components; `attackDone` the `AttackDone` marker; `durs` the optional
`AttackDurationsComp`. -/
structure PlayerComps where
  state : PState
  attackTimer : Option Timer
  cooldown : Option Timer
  attackDone : Bool
  durs : Option AttackDurationsComp
deriving DecidableEq, Repr

/-- `tick_attack_timers`: advance `AttackCooldown` and `AttackTimer` by the
frame delta. -/
def tick_attack_timers (c : PlayerComps) (dt : ℚ) : PlayerComps :=
  { c with
    cooldown := c.cooldown.map (fun t => t.tick dt)
    attackTimer := c.attackTimer.map (fun t => t.tick dt) }

/-- Duration selected by `on_enter_attack_start_timer` from the attack state
currently on the entity (checked in the order idle, walk, run, jump, fall;
`d.idle` when none matches). -/
def attackVariantSecs (s : PState) (d : AttackDurationsComp) : ℚ :=
  if s = .idleAttack then d.idle
  else if s = .walkingAttack then d.walk
  else if s = .runningAttack then d.run
  else if s = .jumpingAttack then d.jump
  else if s = .fallingAttack then d.fall
  else d.idle

/-- `on_enter_attack_start_timer`: runs for an entity with any of the five
attack markers `Added` this tick (`prevState`/`c.state` are the machine
states on consecutive ticks).  It inserts a fresh `AttackTimer` with the new
variant's full duration (0.5 s defaults when the durations component is
missing), resets the `AttackCooldown` to a zero-duration timer (`reset` then
`set_duration(0.0)`; inserted fresh when absent), and removes `AttackDone`. -/
def on_enter_attack_start_timer (prevState : PState) (c : PlayerComps) : PlayerComps :=
  let added := isAttackState c.state && decide (c.state ≠ prevState)
  if !added then c
  else
    let d := c.durs.getD ⟨1/2, 1/2, 1/2, 1/2, 1/2⟩
    let secs := attackVariantSecs c.state d
    { c with
      attackTimer := some (Timer.fromSeconds secs)
      cooldown := some (match c.cooldown with
        | some cd => (cd.reset).setDuration 0
        | none => Timer.fromSeconds 0)
      attackDone := false }

/-- `finish_attack_when_timer_done`: for an entity carrying an `AttackTimer`
that reports finished, set the cooldown's duration to `ATTACK_COOLDOWN_S`
and reset it (inserting a fresh one when absent), insert `AttackDone`, and
remove the `AttackTimer`. -/
def finish_attack_when_timer_done (c : PlayerComps) : PlayerComps :=
  match c.attackTimer with
  | none => c
  | some t =>
    if t.finished then
      { c with
        cooldown := some (match c.cooldown with
          | some cd => (cd.setDuration ATTACK_COOLDOWN_S).reset
          | none => Timer.fromSeconds ATTACK_COOLDOWN_S)
        attackDone := true
        attackTimer := none }
    else c

/-- `clear_attack_done`: remove `AttackDone` from entities that are no longer
in any attack state. -/
def clear_attack_done (c : PlayerComps) : PlayerComps :=
  if c.attackDone && !isAttackState c.state then { c with attackDone := false }
  else c

/-! ## Melee raycast bookkeeping (src/raycasts.rs, src/character.rs
`bridge_attack_states_to_melee_tag`) -/

/-- `bridge_attack_states_to_melee_tag`: insert `MeleeAttackActive` when some
attack marker is present and the tag is not, remove it when no attack marker
is present and the tag is; otherwise leave the tag alone.  Returns the new
tag state. -/
def bridge_attack_states_to_melee_tag (attacking meleeTag : Bool) : Bool :=
  match attacking, meleeTag with
  | true, false => true
  | false, true => false
  | _, _ => meleeTag

/-- The swing-related components on an attacker: the `AlreadyHit` dedup set
(a component that may be absent) and whether an `AttackRay` child entity
exists. -/
structure SwingComps where
  alreadyHit : Option (List ℕ)
  rayChild : Bool
deriving DecidableEq, Repr

/-- `spawn_ray_on_attack_start` (gated on `Added<MeleeAttackActive>`) and
`despawn_ray_on_attack_end` (gated on `RemovedComponents<MeleeAttackActive>`)
combined: on the tick the tag appears, insert a fresh empty `AlreadyHit`
(overwriting any stale one) and spawn the ray child; on the tick the tag
disappears, despawn the ray child — the `AlreadyHit` component is not
touched; on other ticks do nothing. -/
def rayMaintain (prevMelee nowMelee : Bool) (c : SwingComps) : SwingComps :=
  if nowMelee && !prevMelee then { alreadyHit := some [], rayChild := true }
  else if prevMelee && !nowMelee then { c with rayChild := false }
  else c

/-- Loop body of `emit_hits_from_rays` for one ray hit: with
`once_per_swing` set and an `AlreadyHit` component present, skip a target
already in the set and record a newly hit one; emit an event (here: the
target id) for every non-skipped hit.  When the `AlreadyHit` component is
missing, the `hit_sets.get_mut` lookup fails and the event is emitted
without dedup. -/
def emitBody (once : Bool) (acc : Option (List ℕ) × List ℕ) (tgt : ℕ) :
    Option (List ℕ) × List ℕ :=
  if once then
    match acc.1 with
    | some l =>
      if tgt ∈ l then acc
      else (some (tgt :: l), acc.2 ++ [tgt])
    | none => (none, acc.2 ++ [tgt])
  else (acc.1, acc.2 ++ [tgt])

/-- One tick of `emit_hits_from_rays` for a single attacker: fold `emitBody`
over the sorted ray hits, starting from the attacker's `AlreadyHit`
component and an empty event queue. -/
def emit_hits_from_rays (once : Bool) (hits : List ℕ) (set : Option (List ℕ)) :
    Option (List ℕ) × List ℕ :=
  hits.foldl (emitBody once) (set, [])

/-- Events emitted over a whole swing: run `emit_hits_from_rays` once per
tick on that tick's ray-overlap list, threading the `AlreadyHit` state and
concatenating the emitted events. -/
def swingEmit (once : Bool) (ticks : List (List ℕ)) (set : Option (List ℕ)) :
    Option (List ℕ) × List ℕ :=
  match ticks with
  | [] => (set, [])
  | hits :: rest =>
    let r := emit_hits_from_rays once hits set
    let s := swingEmit once rest r.1
    (s.1, r.2 ++ s.2)

/-! ## Enemy attack action (src/enemy.rs `attack_action`) -/

/-- `big_brain` action states, as matched in `attack_action`. -/
inductive BBActionState
  | init | requested | executing | cancelled | success | failure
deriving DecidableEq, Repr

/-- Enemy tuning constants. -/
def SWING_DEFAULT : ℚ := 35/100

/-- `COOLDOWN` tuning constant. -/
def COOLDOWN : ℚ := 60/100

/-- `RUN` tuning constant. -/
def ENEMY_RUN : ℚ := 200

/-- The `EnemyAttackDurations` component. -/
structure EnemyAttackDurations where
  idle : ℚ
  walk : ℚ
  run : ℚ
  jump : ℚ
  fall : ℚ
deriving DecidableEq, Repr

/-- The components `attack_action` reads and writes on one enemy actor.
Optional fields model queries that can miss (`vels.get`, `durs_q.get`,
`senses_q.get`, `contacts_q.get`). -/
structure EnemyActorComps where
  stunned : Bool
  dead : Bool
  attackTimer : Option Timer
  cooldown : Option Timer
  meleeActive : Bool
  vel : Option Vec2
  contactsNonEmpty : Option Bool
  durs : Option EnemyAttackDurations
  sensesDx : Option ℚ
deriving DecidableEq, Repr

/-- Helper of `attack_action`'s start branch: the swing duration picked to
match the animation that will play. -/
def enemyAttackSecs (c : EnemyActorComps) : ℚ :=
  let speed := (c.vel.map (fun v => |v.x|)).getD 0
  let onGround := c.contactsNonEmpty.getD true
  let inAir := !onGround
  let running := decide (speed > ENEMY_RUN * (7/10))
  let moving := decide (speed > 6)
  if inAir then
    (c.durs.map (fun d =>
      if (c.vel.map Vec2.y).getD 0 > 0 then d.jump else d.fall)).getD SWING_DEFAULT
  else if running then (c.durs.map EnemyAttackDurations.run).getD SWING_DEFAULT
  else if moving || (c.sensesDx.map (fun dx => decide (|dx| > 4))).getD false then
    (c.durs.map EnemyAttackDurations.walk).getD SWING_DEFAULT
  else (c.durs.map EnemyAttackDurations.idle).getD SWING_DEFAULT

/-- Set `v.x = 0.0` when the velocity query succeeds. -/
def zeroVelX (c : EnemyActorComps) : EnemyActorComps :=
  { c with vel := c.vel.map (fun v => ⟨0, v.y⟩) }

/-- One `attack_action` pass for one enemy actor, following the
`ActionState` match in the source.  The `timers` query of the source has only
optional components and thus always matches the live actor, so its failure
arm (bail without cooldown) does not occur in this embedding. -/
def attack_action (st : BBActionState) (c : EnemyActorComps) :
    BBActionState × EnemyActorComps :=
  match st with
  | .init | .requested =>
    if c.stunned || c.dead then (.failure, c)
    else
      let swinging := c.attackTimer.isSome
      let onCd := (c.cooldown.map (fun cd => !cd.finished)).getD false
      if !onCd && !swinging then
        let secs := enemyAttackSecs c
        let c := { c with
          meleeActive := true
          attackTimer := some (Timer.fromSeconds secs) }
        (.executing, zeroVelX c)
      else (.failure, c)
  | .executing =>
    if c.stunned || c.dead then
      let c := { c with meleeActive := false, attackTimer := none }
      (.failure, zeroVelX c)
    else
      let c := zeroVelX c
      let done := (c.attackTimer.map Timer.finished).getD false
      if done then
        (.success,
         { c with
           meleeActive := false
           attackTimer := none
           cooldown := some (Timer.fromSeconds COOLDOWN) })
      else (.executing, c)
  | .cancelled =>
    (.failure, { c with meleeActive := false, attackTimer := none })
  | .success | .failure => (.requested, c)

/-! ## Enemy health reactions and impact timers (src/enemy.rs) -/

/-- The `EnemyImpactDurations` component. -/
structure EnemyImpactDurations where
  stun : ℚ
  die : ℚ
deriving DecidableEq, Repr

/-- The per-enemy state `react_to_enemy_health_changes` and
`tick_enemy_impact_timers` operate on.  `memoHealth` is this enemy's entry in
the system-local previous-health map; `despawned` records that the death
timer expired and the entity was despawned. -/
structure EnemyImpactWorld where
  health : ℚ
  memoHealth : Option ℚ
  stunned : Bool
  dead : Bool
  stunTimer : Option Timer
  deathTimer : Option Timer
  meleeActive : Bool
  impacts : EnemyImpactDurations
  despawned : Bool
deriving DecidableEq, Repr

/-- `react_to_enemy_health_changes`: diff health against the memoized
previous value (defaulting to the current health on first sight), record the
current value; skip when health did not strictly decrease or the enemy is
already dead; otherwise disable the melee hitbox and either enter
`EnemyDead` (health ≤ 0: stun state and timer removed, death timer started
from the impact-duration config) or enter `EnemyStunned` with a stun
timer. -/
def react_to_enemy_health_changes (w : EnemyImpactWorld) : EnemyImpactWorld :=
  let prev := w.memoHealth.getD w.health
  let w1 := { w with memoHealth := some w.health }
  if w.health ≥ prev || w.dead then w1
  else
    let w2 := { w1 with meleeActive := false }
    if w.health ≤ 0 then
      { w2 with
        stunned := false
        stunTimer := none
        dead := true
        deathTimer := some (Timer.fromSeconds w.impacts.die) }
    else
      { w2 with
        stunned := true
        stunTimer := some (Timer.fromSeconds w.impacts.stun) }

/-- `tick_enemy_impact_timers`: tick the stun timer of a stunned enemy,
clearing the stun state and its timer on expiry; tick the death timer of a
dead enemy, despawning the entity on expiry. -/
def tick_enemy_impact_timers (w : EnemyImpactWorld) (dt : ℚ) : EnemyImpactWorld :=
  let w1 :=
    match w.stunned, w.stunTimer with
    | true, some t =>
      let t := t.tick dt
      if t.finished then { w with stunned := false, stunTimer := none }
      else { w with stunTimer := some t }
    | _, _ => w
  match w1.dead, w1.deathTimer with
  | true, some t =>
    let t := t.tick dt
    if t.finished then { w1 with despawned := true }
    else { w1 with deathTimer := some t }
  | _, _ => w1

/-! ## Stun knockback (src/enemy.rs `on_added_enemy_stunned_knockback`,
`apply_melee_damage_to_enemies`) -/

/-- `ENEMY_KNOCKBACK_SPEED` tuning constant. -/
def ENEMY_KNOCKBACK_SPEED : ℚ := 260

/-- `ENEMY_KNOCKBACK_POP` tuning constant. -/
def ENEMY_KNOCKBACK_POP : ℚ := 300

/-- `on_added_enemy_stunned_knockback`, run on the tick `EnemyStunned` is
added: choose the hit direction from the recorded `EnemyLastHitDir`
(falling back to a facing-based direction when absent); take the horizontal
sign from `dir.x.signum()` when `|dir.x| ≥ 0.1`, else from facing; clamp the
class knockback resist to `[0, 0.95]` (`0.0` when no class); set
`vel.x = x_sign × ENEMY_KNOCKBACK_SPEED × (1 − resist)` and
`vel.y = max(vel.y, ENEMY_KNOCKBACK_POP × (1 − resist))`.
`spriteFacingRight` is `sprite.map(|s| !s.flip_x)`. -/
def on_added_enemy_stunned_knockback (vel : Vec2) (lastHitDir : Option Vec2)
    (spriteFacingRight : Option Bool) (classResist : Option ℚ) : Vec2 :=
  let dir :=
    match lastHitDir with
    | some d => d
    | none =>
      let facingRight := spriteFacingRight.getD true
      if facingRight then Vec2.mk (-1) (1/5) else Vec2.mk 1 (1/5)
  let xSign :=
    if |dir.x| ≥ 1/10 then fsignum dir.x
    else
      let facingRight := spriteFacingRight.getD true
      if facingRight then -1 else 1
  let resist := rclamp (classResist.getD 0) 0 (95/100)
  let mult := 1 - resist
  ⟨xSign * ENEMY_KNOCKBACK_SPEED * mult, max vel.y (ENEMY_KNOCKBACK_POP * mult)⟩

/-- Specification of glam's `normalize_or_zero`, used by
`apply_melee_damage_to_enemies` to record `EnemyLastHitDir` from
`target position − attacker position`.  The square root is irrational, so the
normalized vector is characterized rather than computed: it is the zero
vector for zero input, and otherwise the unique positive rescaling of the
input with unit squared norm. -/
def NormalizedDir (v d : Vec2) : Prop :=
  (v = ⟨0, 0⟩ ∧ d = ⟨0, 0⟩) ∨
  (d.x ^ 2 + d.y ^ 2 = 1 ∧ ∃ c : ℚ, 0 < c ∧ v.x = c * d.x ∧ v.y = c * d.y)

/-! ## Death passivation (src/enemy.rs `on_added_enemy_dead_make_passive`) -/

/-- The physics-facing components of an enemy: transform z, linear velocity,
rigid-body kind and collider presence. -/
structure EnemyPhysBody where
  z : ℚ
  vel : Vec2
  kinematic : Bool
  hasCollider : Bool
deriving DecidableEq, Repr

/-- `on_added_enemy_dead_make_passive`, run on the tick `EnemyDead` is
added: lower the transform z by `0.5`, zero the linear velocity, switch the
rigid body to `Kinematic` and remove the `Collider`. -/
def on_added_enemy_dead_make_passive (p : EnemyPhysBody) : EnemyPhysBody :=
  { z := p.z - 1/2, vel := ⟨0, 0⟩, kinematic := true, hasCollider := false }

/-- Modelled from the spec: the physics engine's ray-intersection query (the
external collaborator consumed via avian) returns only collider-carrying
entities, so an entity can be hit by a melee raycast only while it has a
collider. -/
def rayCanHit (p : EnemyPhysBody) : Bool := p.hasCollider

/-- Modelled from the spec: rigid bodies collide with the player or the world
only through their collider. -/
def canCollide (p : EnemyPhysBody) : Bool := p.hasCollider

/-! ## Player-side damage (src/raycasts.rs
`apply_melee_damage_to_player_stats`, src/hud.rs `PlayerStats`) -/

/-- The global `PlayerStats` resource. -/
structure PlayerStatsRes where
  health : ℚ
  maxHealth : ℚ
  stamina : ℚ
  maxStamina : ℚ
deriving DecidableEq, Repr

/-- A `MeleeRaycastHit` event. -/
structure HitEvent where
  attacker : ℕ
  target : ℕ
  distance : ℚ
  normal : Vec2
  damage : ℤ

/-- The state `apply_melee_damage_to_player_stats` can see or touch:
the `PlayerStats` resource, which entities carry `ClassAttachTarget`, each
entity's optional `PlayerClass` defense — plus the player-entity fields the
system never writes (no stun, death or knockback system targets the player:
the enemy impact systems all filter on `With<Enemy>`). -/
structure PlayerSideWorld where
  stats : PlayerStatsRes
  tagged : ℕ → Bool
  classDefense : ℕ → Option ℚ
  playerStunned : Bool
  playerDead : Bool
  playerVel : Vec2

/-- `apply_melee_damage_to_player_stats`: for each hit event whose target
carries `ClassAttachTarget`, clamp that target's class defense to
`[0, 0.95]` (`0.0` when no `PlayerClass`), mitigate the raw damage and
subtract it from the `PlayerStats.health` resource, floored at `0`; all
other events leave the resource untouched. -/
def apply_melee_damage_to_player_stats (w : PlayerSideWorld)
    (events : List HitEvent) : PlayerSideWorld :=
  events.foldl
    (fun w hit =>
      if w.tagged hit.target then
        let defense := rclamp ((w.classDefense hit.target).getD 0) 0 (95/100)
        let reduced := (hit.damage : ℚ) * (1 - defense)
        let dmg := ((⌈max reduced 0⌉ : ℤ) : ℚ)
        { w with stats := { w.stats with health := max (w.stats.health - dmg) 0 } }
      else w)
    w

/-! ## Theorems -/

/-- The fold of `apply_melee_damage_to_player_stats` touches only the
`PlayerStats` resource: every other field of the world is preserved. -/
theorem player_damage_preserves_entity (events : List HitEvent) :
    ∀ w : PlayerSideWorld,
      (apply_melee_damage_to_player_stats w events).playerStunned = w.playerStunned ∧
      (apply_melee_damage_to_player_stats w events).playerDead = w.playerDead ∧
      (apply_melee_damage_to_player_stats w events).playerVel = w.playerVel ∧
      (apply_melee_damage_to_player_stats w events).tagged = w.tagged ∧
      (apply_melee_damage_to_player_stats w events).classDefense = w.classDefense := by
  induction events with
  | nil => intro w; simp [apply_melee_damage_to_player_stats]
  | cons hit rest ih =>
    intro w
    simp only [apply_melee_damage_to_player_stats, List.foldl_cons] at *
    by_cases h : w.tagged hit.target = true <;> simp [h, ih]

/-- C2: for every melee hit event the applied damage is
`ceil(max(0, raw × (1 − defense)))` with the defense clamped to `[0, 0.95]`
(`0.0` when no class data is attached), the resulting health is
`max(0, previous − damage)`, and a target at health 40 hit with raw damage 20
and defense 0.5 ends at health 30. -/
theorem c2_damage_mitigation :
    (∀ (raw : ℤ) (classDefense : Option ℚ),
      enemyMitigatedDamage raw classDefense =
        specMitigatedDamage raw (rclamp (classDefense.getD 0) 0 (95/100)) ∧
      playerMitigatedDamage raw classDefense =
        specMitigatedDamage raw (rclamp (classDefense.getD 0) 0 (95/100)) ∧
      ∀ health : ℚ,
        enemyHealthAfterHit health raw classDefense =
          max (health -
            specMitigatedDamage raw (rclamp (classDefense.getD 0) 0 (95/100))) 0) ∧
    enemyHealthAfterHit 40 20 (some (1/2)) = 30 := by
  constructor
  · intro raw classDefense
    refine ⟨?_, ?_, ?_⟩ <;>
      simp [enemyMitigatedDamage, playerMitigatedDamage, specMitigatedDamage,
        enemyHealthAfterHit, max_comm]
  · show max (40 - enemyMitigatedDamage 20 (some (1/2))) 0 = 30
    have h : enemyMitigatedDamage 20 (some (1/2)) = 10 := by
      simp only [enemyMitigatedDamage, rclamp, Option.getD]
      norm_num
    rw [h]; norm_num

/-- C9: on the tick `EnemyDead` is added, the enemy's velocity is zeroed,
its body becomes kinematic, its collider is removed and its z is lowered by
0.5; without a collider it can neither collide nor be hit by a melee
raycast. -/
theorem c9_dead_enemy_passive (p : EnemyPhysBody) :
    (on_added_enemy_dead_make_passive p).vel = ⟨0, 0⟩ ∧
    (on_added_enemy_dead_make_passive p).kinematic = true ∧
    (on_added_enemy_dead_make_passive p).hasCollider = false ∧
    (on_added_enemy_dead_make_passive p).z = p.z - 1/2 ∧
    rayCanHit (on_added_enemy_dead_make_passive p) = false ∧
    canCollide (on_added_enemy_dead_make_passive p) = false := by
  simp [on_added_enemy_dead_make_passive, rayCanHit, canCollide]

/-- C10: a hit whose target carries `ClassAttachTarget` subtracts the
defense-mitigated damage from the global `PlayerStats.health`, floored at 0;
a hit on any other target leaves the resource untouched; and no sequence of
hit events ever stuns, kills or knocks back the player entity. -/
theorem c10_player_damage (w : PlayerSideWorld) (hit : HitEvent) :
    (w.tagged hit.target = true →
      (apply_melee_damage_to_player_stats w [hit]).stats.health =
        max (w.stats.health -
          playerMitigatedDamage hit.damage (w.classDefense hit.target)) 0) ∧
    (w.tagged hit.target = false →
      (apply_melee_damage_to_player_stats w [hit]).stats = w.stats) ∧
    (∀ events : List HitEvent,
      (apply_melee_damage_to_player_stats w events).playerStunned = w.playerStunned ∧
      (apply_melee_damage_to_player_stats w events).playerDead = w.playerDead ∧
      (apply_melee_damage_to_player_stats w events).playerVel = w.playerVel) := by
  refine ⟨?_, ?_, ?_⟩
  · intro h
    simp [apply_melee_damage_to_player_stats, h, playerMitigatedDamage]
  · intro h
    simp [apply_melee_damage_to_player_stats, h]
  · intro events
    exact ⟨(player_damage_preserves_entity events w).1,
      (player_damage_preserves_entity events w).2.1,
      (player_damage_preserves_entity events w).2.2.1⟩

/-- Witness for C10 at a concrete world: the sole tagged target 3 with
defense 0.5 hit for raw damage 20 takes the player resource from 100 to
90, and the player entity stays unstunned, alive and unmoved. -/
theorem c10_player_damage_witness :
    (apply_melee_damage_to_player_stats
        ⟨⟨100, 100, 100, 100⟩, fun n => n = 3, fun _ => some (1/2),
          false, false, ⟨0, 0⟩⟩
        [⟨1, 3, 10, ⟨1, 0⟩, 20⟩]).stats.health = 90 ∧
    (apply_melee_damage_to_player_stats
        ⟨⟨100, 100, 100, 100⟩, fun n => n = 3, fun _ => some (1/2),
          false, false, ⟨0, 0⟩⟩
        [⟨1, 4, 10, ⟨1, 0⟩, 20⟩]).stats.health = 100 := by
  have h := c10_player_damage
    ⟨⟨100, 100, 100, 100⟩, fun n => n = 3, fun _ => some (1/2),
      false, false, ⟨0, 0⟩⟩
    ⟨1, 3, 10, ⟨1, 0⟩, 20⟩
  have h2 := c10_player_damage
    ⟨⟨100, 100, 100, 100⟩, fun n => n = 3, fun _ => some (1/2),
      false, false, ⟨0, 0⟩⟩
    ⟨1, 4, 10, ⟨1, 0⟩, 20⟩
  constructor
  · rw [h.1 (by simp)]
    have hm : playerMitigatedDamage 20 (some (1/2)) = 10 := by
      simp only [playerMitigatedDamage, rclamp, Option.getD]
      norm_num
    rw [hm]; norm_num
  · rw [h2.2.1 (by simp)]

/-- C7: the jump impulse sets the vertical velocity to the configured
`JUMP_VELOCITY = 520` exactly on the tick the `Jumping` or `SprintJumping`
marker is newly on the entity, and the system changes nothing on a tick on
which the machine state did not change. -/
theorem c7_jump_impulse (s s' : PState) (vel : Vec2) :
    ((s ≠ .jumping ∧ s' = .jumping) ∨ (s ≠ .sprintJumping ∧ s' = .sprintJumping) →
      (on_added_jumping_set_impulse (tagsOfState s) (tagsOfState s') vel).y =
        JUMP_VELOCITY) ∧
    (s = s' →
      on_added_jumping_set_impulse (tagsOfState s) (tagsOfState s') vel = vel) ∧
    (on_added_jumping_set_impulse (tagsOfState s) (tagsOfState s') vel ≠ vel →
      (s ≠ .jumping ∧ s' = .jumping) ∨ (s ≠ .sprintJumping ∧ s' = .sprintJumping)) ∧
    JUMP_VELOCITY = 520 := by
  refine ⟨?_, ?_, ?_, rfl⟩
  · rintro (⟨h1, h2⟩ | ⟨h1, h2⟩) <;> subst h2 <;>
      cases s <;> simp_all [on_added_jumping_set_impulse, tagsOfState]
  · intro h; subst h
    simp [on_added_jumping_set_impulse, tagsOfState]
  · intro h
    by_contra hc
    push_neg at hc
    apply h
    cases s <;> cases s' <;> simp_all [on_added_jumping_set_impulse, tagsOfState]

/-- Witness for C7: entering `Jumping` from `Idle` sets the vertical
velocity to 520, and staying in `Jumping` leaves the velocity untouched. -/
theorem c7_jump_impulse_witness :
    (on_added_jumping_set_impulse (tagsOfState .idle) (tagsOfState .jumping)
        ⟨7, 0⟩).y = JUMP_VELOCITY ∧
    on_added_jumping_set_impulse (tagsOfState .jumping) (tagsOfState .jumping)
        ⟨7, 520⟩ = ⟨7, 520⟩ := by
  refine ⟨(c7_jump_impulse .idle .jumping ⟨7, 0⟩).1 (Or.inl ⟨by simp, rfl⟩), ?_⟩
  exact (c7_jump_impulse .jumping .jumping ⟨7, 520⟩).2.1 rfl

/-- C3: an enemy whose health strictly decreased this tick and is not
already dead dies (death timer from its impact-duration config, stun state
and timer removed, melee hitbox disabled) when the new health is ≤ 0, and is
stunned with a stun timer otherwise; a hit on an already-dead enemy changes
nothing but the health memo; a dead enemy whose death timer expires is
despawned; and the post-hit health formula never goes below 0. -/
theorem c3_enemy_death_stun (w : EnemyImpactWorld) (p : ℚ)
    (hmemo : w.memoHealth = some p) (hdec : w.health < p) (hnd : w.dead = false) :
    ((w.health ≤ 0 →
      (react_to_enemy_health_changes w).dead = true ∧
      (react_to_enemy_health_changes w).deathTimer =
        some (Timer.fromSeconds w.impacts.die) ∧
      (react_to_enemy_health_changes w).stunned = false ∧
      (react_to_enemy_health_changes w).stunTimer = none ∧
      (react_to_enemy_health_changes w).meleeActive = false) ∧
    (0 < w.health →
      (react_to_enemy_health_changes w).stunned = true ∧
      (react_to_enemy_health_changes w).stunTimer =
        some (Timer.fromSeconds w.impacts.stun) ∧
      (react_to_enemy_health_changes w).dead = false ∧
      (react_to_enemy_health_changes w).meleeActive = false)) ∧
    (∀ w' : EnemyImpactWorld, w'.dead = true →
      react_to_enemy_health_changes w' = { w' with memoHealth := some w'.health }) ∧
    (∀ (w' : EnemyImpactWorld) (t : Timer) (dt : ℚ), w'.dead = true →
      w'.deathTimer = some t → (t.tick dt).finished = true →
      (tick_enemy_impact_timers w' dt).despawned = true) ∧
    (∀ (health : ℚ) (raw : ℤ) (classDefense : Option ℚ),
      0 ≤ enemyHealthAfterHit health raw classDefense) := by
  have hb : (decide (w.health ≥ p) || w.dead) = false := by
    simp only [hnd, Bool.or_false, decide_eq_false_iff_not, ge_iff_le, not_le]
    exact hdec
  refine ⟨⟨?_, ?_⟩, ?_, ?_, ?_⟩
  · intro hle
    simp only [react_to_enemy_health_changes, hmemo, Option.getD_some, hb,
      Bool.false_eq_true, if_false]
    rw [if_pos hle]
    simp
  · intro hpos
    simp only [react_to_enemy_health_changes, hmemo, Option.getD_some, hb,
      Bool.false_eq_true, if_false]
    rw [if_neg (not_le.2 hpos)]
    simp [hnd]
  · intro w' hd
    simp only [react_to_enemy_health_changes, hd, Bool.or_true, if_true]
  · intro w' t dt hd hdt hfin
    simp only [tick_enemy_impact_timers]
    rcases hsw : w'.stunned with _ | _
    · simp only [hsw]
      rcases hst : w'.stunTimer with _ | st
      · simp [hd, hdt, hfin]
      · simp [hd, hdt, hfin]
    · rcases hst : w'.stunTimer with _ | st
      · simp [hd, hdt, hfin]
      · by_cases hsf : (st.tick dt).finished = true
        · simp [hsf, hd, hdt, hfin]
        · simp only [Bool.not_eq_true] at hsf
          simp [hsf, hd, hdt, hfin]
  · intro health raw classDefense
    simp [enemyHealthAfterHit]

/-- Witness for C3 at concrete worlds: a live enemy memoized at health 10
now at 0 dies with a 1.2 s death timer and no stun; one now at 5 is stunned
with a 0.6 s stun timer; a dead enemy's state is untouched apart from the
memo; an expired death timer despawns. -/
theorem c3_enemy_death_stun_witness :
    (react_to_enemy_health_changes
        ⟨0, some 10, false, false, none, none, true, ⟨6/10, 12/10⟩, false⟩).dead
      = true ∧
    (react_to_enemy_health_changes
        ⟨0, some 10, false, false, none, none, true, ⟨6/10, 12/10⟩, false⟩).deathTimer
      = some (Timer.fromSeconds (12/10)) ∧
    (react_to_enemy_health_changes
        ⟨5, some 10, false, false, none, none, true, ⟨6/10, 12/10⟩, false⟩).stunned
      = true ∧
    react_to_enemy_health_changes
        ⟨0, some 0, true, true, none, some (Timer.fromSeconds (12/10)), false,
          ⟨6/10, 12/10⟩, false⟩
      = ⟨0, some 0, true, true, none, some (Timer.fromSeconds (12/10)), false,
          ⟨6/10, 12/10⟩, false⟩ ∧
    (tick_enemy_impact_timers
        ⟨0, some 0, false, true, none, some (Timer.fromSeconds (12/10)), false,
          ⟨6/10, 12/10⟩, false⟩ 2).despawned = true := by
  have h1 := c3_enemy_death_stun
    ⟨0, some 10, false, false, none, none, true, ⟨6/10, 12/10⟩, false⟩ 10
    rfl (by norm_num) rfl
  have h2 := c3_enemy_death_stun
    ⟨5, some 10, false, false, none, none, true, ⟨6/10, 12/10⟩, false⟩ 10
    rfl (by norm_num) rfl
  refine ⟨(h1.1.1 (by norm_num)).1, (h1.1.1 (by norm_num)).2.1,
    (h2.1.2 (by norm_num)).1, h1.2.1 _ rfl, ?_⟩
  exact h1.2.2.1 _ (Timer.fromSeconds (12/10)) 2 rfl rfl (by
    simp [Timer.fromSeconds, Timer.tick]
    norm_num)

/-- C5: for the player, `finish_attack_when_timer_done` restarts the
cooldown with the fixed post-swing constant exactly when the `AttackTimer`
reports finished (and then removes the timer and marks the attack done),
while `on_enter_attack_start_timer` never produces that restart; for the
enemy, natural completion in `attack_action` restarts the cooldown with
`COOLDOWN` and removes the attack state and timer, whereas the
stun/death-mid-swing and `Cancelled` paths remove them with the cooldown
untouched — the cooldown changes only on the natural-completion path. -/
theorem c5_cooldown_on_completion_only :
    (∀ (c : PlayerComps) (t : Timer), c.attackTimer = some t → t.finished = true →
      (finish_attack_when_timer_done c).cooldown =
        some (Timer.fromSeconds ATTACK_COOLDOWN_S) ∧
      (finish_attack_when_timer_done c).attackTimer = none ∧
      (finish_attack_when_timer_done c).attackDone = true) ∧
    (∀ c : PlayerComps,
      (finish_attack_when_timer_done c).cooldown ≠ c.cooldown →
      ∃ t : Timer, c.attackTimer = some t ∧ t.finished = true) ∧
    (∀ (prevState : PState) (c : PlayerComps),
      (on_enter_attack_start_timer prevState c).cooldown ≠ c.cooldown →
      (on_enter_attack_start_timer prevState c).cooldown = some (Timer.fromSeconds 0)) ∧
    (∀ (c : EnemyActorComps) (t : Timer),
      c.stunned = false → c.dead = false → c.attackTimer = some t →
      t.finished = true →
      (attack_action .executing c).2.cooldown = some (Timer.fromSeconds COOLDOWN) ∧
      (attack_action .executing c).2.attackTimer = none ∧
      (attack_action .executing c).2.meleeActive = false ∧
      (attack_action .executing c).1 = .success) ∧
    (∀ c : EnemyActorComps, c.stunned = true ∨ c.dead = true →
      (attack_action .executing c).2.meleeActive = false ∧
      (attack_action .executing c).2.attackTimer = none ∧
      (attack_action .executing c).2.cooldown = c.cooldown ∧
      (attack_action .executing c).1 = .failure) ∧
    (∀ c : EnemyActorComps,
      (attack_action .cancelled c).2.meleeActive = false ∧
      (attack_action .cancelled c).2.attackTimer = none ∧
      (attack_action .cancelled c).2.cooldown = c.cooldown) ∧
    (∀ (st : BBActionState) (c : EnemyActorComps),
      (attack_action st c).2.cooldown ≠ c.cooldown →
      st = .executing ∧ c.stunned = false ∧ c.dead = false ∧
      (∃ t : Timer, c.attackTimer = some t ∧ t.finished = true) ∧
      (attack_action st c).2.cooldown = some (Timer.fromSeconds COOLDOWN)) := by
  refine ⟨?_, ?_, ?_, ?_, ?_, ?_, ?_⟩
  · intro c t ht hf
    cases hcd : c.cooldown <;>
      simp [finish_attack_when_timer_done, ht, hf, hcd, Timer.setDuration,
        Timer.reset, Timer.fromSeconds]
  · intro c hne
    rcases ht : c.attackTimer with _ | t
    · exact absurd (by simp [finish_attack_when_timer_done, ht]) hne
    · by_cases hf : t.finished = true
      · exact ⟨t, rfl, hf⟩
      · simp only [Bool.not_eq_true] at hf
        exact absurd (by simp [finish_attack_when_timer_done, ht, hf]) hne
  · intro prevState c hne
    by_cases hA : isAttackState c.state = true
    · by_cases hNe : c.state = prevState
      · exact absurd (by simp [on_enter_attack_start_timer, hNe]) hne
      · cases hcd : c.cooldown <;>
          simp [on_enter_attack_start_timer, hA, hNe, hcd, Timer.reset,
            Timer.setDuration, Timer.fromSeconds]
    · simp only [Bool.not_eq_true] at hA
      exact absurd (by simp [on_enter_attack_start_timer, hA]) hne
  · intro c t hs hd ht hf
    simp [attack_action, hs, hd, zeroVelX, ht, hf]
  · intro c hsd
    rcases hsd with hs | hd
    · simp [attack_action, hs, zeroVelX]
    · simp [attack_action, hd, zeroVelX]
  · intro c
    simp [attack_action]
  · intro st c hne
    cases st with
    | executing =>
      by_cases hs : c.stunned = true
      · simp [attack_action, hs, zeroVelX] at hne
      · simp only [Bool.not_eq_true] at hs
        by_cases hd : c.dead = true
        · simp [attack_action, hs, hd, zeroVelX] at hne
        · simp only [Bool.not_eq_true] at hd
          rcases ht : c.attackTimer with _ | t
          · simp [attack_action, hs, hd, zeroVelX, ht] at hne
          · by_cases hf : t.finished = true
            · exact ⟨rfl, hs, hd, ⟨t, rfl, hf⟩,
                by simp [attack_action, hs, hd, zeroVelX, ht, hf]⟩
            · simp only [Bool.not_eq_true] at hf
              simp [attack_action, hs, hd, zeroVelX, ht, hf] at hne
    | init =>
      by_cases hsd : (c.stunned || c.dead) = true
      · simp [attack_action, hsd] at hne
      · simp only [Bool.or_eq_true, not_or, Bool.not_eq_true] at hsd
        refine absurd ?_ hne
        simp only [attack_action, hsd.1, hsd.2, zeroVelX]
        split <;> simp
        split <;> rfl
    | requested =>
      by_cases hsd : (c.stunned || c.dead) = true
      · simp [attack_action, hsd] at hne
      · simp only [Bool.or_eq_true, not_or, Bool.not_eq_true] at hsd
        refine absurd ?_ hne
        simp only [attack_action, hsd.1, hsd.2, zeroVelX]
        split <;> simp
        split <;> rfl
    | cancelled => simp [attack_action] at hne
    | success => simp [attack_action] at hne
    | failure => simp [attack_action] at hne

/-- The second component of the `emitBody` fold only ever grows by
appending: folding from `(s, evs)` yields the same dedup set as folding from
`(s, [])`, with `evs` prefixed to the emitted events. -/
theorem emitBody_foldl_shift (once : Bool) :
    ∀ (hits : List ℕ) (s : Option (List ℕ)) (evs : List ℕ),
      hits.foldl (emitBody once) (s, evs) =
        ((hits.foldl (emitBody once) (s, [])).1,
          evs ++ (hits.foldl (emitBody once) (s, [])).2) := by
  intro hits
  induction hits with
  | nil => intro s evs; simp
  | cons x rest ih =>
    intro s evs
    rcases hE : emitBody once (s, ([] : List ℕ)) x with ⟨s1, d⟩
    have hb : emitBody once (s, evs) x = (s1, evs ++ d) := by
      rcases s with _ | l
      · cases once <;> simp_all [emitBody]
      · cases once <;> by_cases hx : x ∈ l <;> simp_all [emitBody, hx]
    simp only [List.foldl_cons, hb, hE]
    rw [ih s1 (evs ++ d), ih s1 d]
    simp

/-- Per-tick dedup invariant of `emit_hits_from_rays` with `once_per_swing`
set and an `AlreadyHit` set present: the set stays present and accumulates
exactly the hit targets, and a given target is emitted once if it was new
and hit this tick, and never if it was already in the set. -/
theorem emit_once_spec (t : ℕ) :
    ∀ (hits l : List ℕ),
      ∃ l' evs',
        emit_hits_from_rays true hits (some l) = (some l', evs') ∧
        (∀ x, x ∈ l' ↔ x ∈ l ∨ x ∈ hits) ∧
        evs'.count t = (if t ∈ l then 0 else if t ∈ hits then 1 else 0) := by
  intro hits
  induction hits with
  | nil => intro l; exact ⟨l, [], rfl, by simp, by simp⟩
  | cons x rest ih =>
    intro l
    by_cases hx : x ∈ l
    · have hb : emitBody true (some l, ([] : List ℕ)) x = (some l, []) := by
        simp [emitBody, hx]
      obtain ⟨l', evs', he, hmem, hcnt⟩ := ih l
      refine ⟨l', evs', ?_, ?_, ?_⟩
      · simpa [emit_hits_from_rays, hb] using he
      · intro y
        rw [hmem y]
        simp only [List.mem_cons]
        constructor
        · rintro (h | h)
          · exact Or.inl h
          · exact Or.inr (Or.inr h)
        · rintro (h | h | h)
          · exact Or.inl h
          · exact Or.inl (h ▸ hx)
          · exact Or.inr h
      · by_cases ht : t ∈ l
        · simpa [ht] using hcnt
        · have htx : t ≠ x := fun h => ht (h ▸ hx)
          simpa [ht, htx, List.mem_cons] using hcnt
    · have hb : emitBody true (some l, ([] : List ℕ)) x = (some (x :: l), [x]) := by
        simp [emitBody, hx]
      obtain ⟨l', evs', he, hmem, hcnt⟩ := ih (x :: l)
      refine ⟨l', [x] ++ evs', ?_, ?_, ?_⟩
      · rw [emit_hits_from_rays, List.foldl_cons, hb,
          emitBody_foldl_shift true rest (some (x :: l)) [x]]
        rw [emit_hits_from_rays] at he
        rw [he]
      · intro y
        rw [hmem y]
        simp only [List.mem_cons]
        tauto
      · rw [List.count_append, hcnt]
        by_cases ht : t = x
        · subst ht
          simp [hx, List.mem_cons]
        · simp only [List.mem_cons]
          by_cases htl : t ∈ l <;> simp [ht, htl, List.count_cons,
            List.count_nil, List.count_singleton]

/-- Whole-swing dedup invariant: threading `emit_hits_from_rays` over the
swing's ticks starting from a present `AlreadyHit` set, a target not in the
starting set is emitted exactly once if its ray overlaps it on at least one
tick, and a target in the starting set never is. -/
theorem swing_once_spec (t : ℕ) :
    ∀ (ticks : List (List ℕ)) (l : List ℕ),
      ∃ l' evs',
        swingEmit true ticks (some l) = (some l', evs') ∧
        (∀ x, x ∈ l' ↔ x ∈ l ∨ ∃ h ∈ ticks, x ∈ h) ∧
        evs'.count t =
          (if t ∈ l then 0 else if ∃ h ∈ ticks, t ∈ h then 1 else 0) := by
  intro ticks
  induction ticks with
  | nil => intro l; exact ⟨l, [], rfl, by simp, by simp⟩
  | cons hits rest ih =>
    intro l
    obtain ⟨l1, evs1, he1, hm1, hc1⟩ := emit_once_spec t hits l
    obtain ⟨l2, evs2, he2, hm2, hc2⟩ := ih l1
    refine ⟨l2, evs1 ++ evs2, ?_, ?_, ?_⟩
    · simp [swingEmit, he1, he2]
    · intro y
      rw [hm2 y, hm1 y]
      simp only [List.mem_cons]
      constructor
      · rintro ((h | h) | ⟨w, hw, hy⟩)
        · exact Or.inl h
        · exact Or.inr ⟨hits, Or.inl rfl, h⟩
        · exact Or.inr ⟨w, Or.inr hw, hy⟩
      · rintro (h | ⟨w, hw | hw, hy⟩)
        · exact Or.inl (Or.inl h)
        · exact Or.inl (Or.inr (hw ▸ hy))
        · exact Or.inr ⟨w, hw, hy⟩
    · rw [List.count_append, hc1, hc2]
      have hl1 : t ∈ l1 ↔ t ∈ l ∨ t ∈ hits := hm1 t
      by_cases h1 : t ∈ l <;> by_cases h2 : t ∈ hits <;>
        by_cases h3 : ∃ h ∈ rest, t ∈ h <;>
          simp [h1, h2, h3, hl1, List.mem_cons]

/-- C4 (amended): with `once_per_swing` set, the `AlreadyHit` dedup set is
created empty on the tick `MeleeAttackActive` is added, and a single target
whose ray overlap spans any number of ticks of the swing (at least one)
yields exactly one hit event for the (attacker, target) pair over the whole
swing; on marker removal only the ray child is despawned — the `AlreadyHit`
component persists (rather than being dropped) until it is overwritten by
the next swing's fresh empty set. -/
theorem c4_once_per_swing (ticks : List (List ℕ)) (t : ℕ) (c0 : SwingComps)
    (hN : ∃ h ∈ ticks, t ∈ h) :
    (rayMaintain false true c0).alreadyHit = some [] ∧
    (swingEmit true ticks (rayMaintain false true c0).alreadyHit).2.count t = 1 ∧
    (∀ c : SwingComps,
      (rayMaintain true false c).alreadyHit = c.alreadyHit ∧
      (rayMaintain true false c).rayChild = false) := by
  have hstart : (rayMaintain false true c0).alreadyHit = some [] := by
    simp [rayMaintain]
  refine ⟨hstart, ?_, ?_⟩
  · obtain ⟨l', evs', he, _, hcnt⟩ := swing_once_spec t ticks []
    rw [hstart, he]
    simpa [hN] using hcnt
  · intro c
    constructor <;> simp [rayMaintain]

/-- Witness for C4: three consecutive ticks of overlap with target 7 during
one swing emit exactly one event, and removing the melee marker afterwards
leaves the stale `AlreadyHit` set in place. -/
theorem c4_once_per_swing_witness :
    (swingEmit true [[7], [7], [7]]
        (rayMaintain false true ⟨none, false⟩).alreadyHit).2.count 7 = 1 ∧
    (rayMaintain true false ⟨some [7], true⟩).alreadyHit = some [7] := by
  have h := c4_once_per_swing [[7], [7], [7]] 7 ⟨none, false⟩
    ⟨[7], by simp, by simp⟩
  exact ⟨h.2.1, (h.2.2 ⟨some [7], true⟩).1⟩

/-- Counterexample for C4 as stated: on the tick the attacking marker is
removed, `despawn_ray_on_attack_end` only despawns the ray child; the
`AlreadyHit` component is not dropped. -/
theorem c4_counterexample :
    (rayMaintain true false ⟨some [5], true⟩).alreadyHit = some [5] ∧
    (rayMaintain true false ⟨some [5], true⟩).alreadyHit ≠ none ∧
    (rayMaintain true false ⟨some [5], true⟩).rayChild = false := by
  refine ⟨?_, ?_, ?_⟩ <;> simp [rayMaintain]

/-- C6 (amended): on stun onset with a recorded hit direction `d` (the
normalization of target position − attacker position) whose horizontal
component clears the `0.1` threshold, the applied velocity is
`sign(d.x) × ENEMY_KNOCKBACK_SPEED × (1 − resist)` horizontally (resist
clamped to `[0, 0.95]`, `0.0` without class data) and
`max(current, ENEMY_KNOCKBACK_POP × (1 − resist))` vertically, and the
horizontal sign points away from the attacker; below the threshold the code
substitutes the facing-based sign for `sign(d.x)`. -/
theorem c6_knockback_sign (vel d : Vec2) (faceR : Option Bool)
    (resist : Option ℚ) (att tgt : Vec2)
    (hnd : NormalizedDir ⟨tgt.x - att.x, tgt.y - att.y⟩ d)
    (hx : |d.x| ≥ 1/10) :
    (on_added_enemy_stunned_knockback vel (some d) faceR resist).x =
      fsignum d.x * ENEMY_KNOCKBACK_SPEED *
        (1 - rclamp (resist.getD 0) 0 (95/100)) ∧
    (on_added_enemy_stunned_knockback vel (some d) faceR resist).y =
      max vel.y (ENEMY_KNOCKBACK_POP *
        (1 - rclamp (resist.getD 0) 0 (95/100))) ∧
    (att.x < tgt.x →
      0 < (on_added_enemy_stunned_knockback vel (some d) faceR resist).x) ∧
    (tgt.x < att.x →
      (on_added_enemy_stunned_knockback vel (some d) faceR resist).x < 0) := by
  have hmult : 0 < 1 - rclamp (resist.getD 0) 0 (95/100) := by
    have h1 : rclamp (resist.getD 0) 0 (95/100) ≤ 95/100 := min_le_right _ _
    linarith
  have habs : (1 : ℚ)/10 ≤ |d.x| := hx
  have hxe : (on_added_enemy_stunned_knockback vel (some d) faceR resist).x =
      fsignum d.x * ENEMY_KNOCKBACK_SPEED *
        (1 - rclamp (resist.getD 0) 0 (95/100)) := by
    simp only [on_added_enemy_stunned_knockback, ge_iff_le]
    rw [if_pos habs]
  have hc : ∃ c : ℚ, 0 < c ∧ tgt.x - att.x = c * d.x := by
    rcases hnd with ⟨hv, hd⟩ | ⟨_, c, hc, hcx, _⟩
    · exfalso
      have : d.x = 0 := by rw [hd]
      rw [this] at hx
      norm_num at hx
    · exact ⟨c, hc, hcx⟩
  obtain ⟨c, hcpos, hcx⟩ := hc
  refine ⟨hxe, ?_, ?_, ?_⟩
  · simp only [on_added_enemy_stunned_knockback, ge_iff_le]
  · intro hlt
    rw [hxe]
    have hdx : 0 < d.x := by
      by_contra hne
      push_neg at hne
      nlinarith
    rw [fsignum, if_neg (not_lt.2 hdx.le)]
    rw [ENEMY_KNOCKBACK_SPEED]
    nlinarith
  · intro hlt
    rw [hxe]
    have hdx : d.x < 0 := by
      by_contra hne
      push_neg at hne
      nlinarith
    rw [fsignum, if_pos hdx]
    rw [ENEMY_KNOCKBACK_SPEED]
    nlinarith

/-- Witness for C6: attacker at x = 0 hitting a target at (3, 4) records the
unit direction (3/5, 4/5); with no resist the stun knockback sends the
target rightward, away from the attacker, at the full 260 speed. -/
theorem c6_knockback_sign_witness :
    (on_added_enemy_stunned_knockback ⟨0, 0⟩ (some ⟨3/5, 4/5⟩)
        (some true) none).x =
      fsignum (3/5) * ENEMY_KNOCKBACK_SPEED * (1 - rclamp 0 0 (95/100)) ∧
    0 < (on_added_enemy_stunned_knockback ⟨0, 0⟩ (some ⟨3/5, 4/5⟩)
        (some true) none).x := by
  have h := c6_knockback_sign ⟨0, 0⟩ ⟨3/5, 4/5⟩ (some true) none
    ⟨0, 0⟩ ⟨3, 4⟩
    (Or.inr ⟨by norm_num, 5, by norm_num, by norm_num, by norm_num⟩)
    (by rw [ge_iff_le, show |(3/5 : ℚ)| = 3/5 from abs_of_pos (by norm_num)]
        norm_num)
  exact ⟨h.1, h.2.2.1 (by norm_num)⟩

/-- Counterexample for C6 as stated: the recorded direction
(39/761, 760/761) — the normalization of (39, 760), a valid
attacker-to-target offset with the target strictly to the right — has
`|dir.x| < 0.1`, so the code uses the facing-based sign: a right-facing
enemy with no resist gets horizontal velocity −260 even though
`sign(dir.x) × knockback_speed × (1 − resist) = 260`, i.e. the knockback
points toward the attacker's side, not away from it. -/
theorem c6_counterexample :
    NormalizedDir ⟨39 - 0, 760 - 0⟩ ⟨39/761, 760/761⟩ ∧
    (0 : ℚ) < 39 - 0 ∧
    (on_added_enemy_stunned_knockback ⟨0, 0⟩ (some ⟨39/761, 760/761⟩)
        (some true) none).x = -260 ∧
    fsignum (39/761) * ENEMY_KNOCKBACK_SPEED *
        (1 - rclamp ((none : Option ℚ).getD 0) 0 (95/100)) = 260 ∧
    (-260 : ℚ) ≠ 260 := by
  refine ⟨Or.inr ⟨by norm_num, 761, by norm_num, by norm_num, by norm_num⟩,
    by norm_num, ?_, ?_, by norm_num⟩
  · have hlt : ¬((1 : ℚ)/10 ≤ |(39/761 : ℚ)|) := by
      rw [show |(39/761 : ℚ)| = 39/761 from abs_of_pos (by norm_num)]
      norm_num
    simp only [on_added_enemy_stunned_knockback, ge_iff_le]
    rw [if_neg hlt]
    norm_num [rclamp, ENEMY_KNOCKBACK_SPEED, min_def, max_def]
  · rw [fsignum, if_neg (by norm_num), ENEMY_KNOCKBACK_SPEED, rclamp]
    norm_num

/-- C1 (amended): the player's machine keeps exactly one of its eleven
state marker components (six locomotion + five attack variants) on the
entity, before and after every transition step; at most one locomotion tag
is ever present — two never coexist — and the locomotion tag count drops to
zero exactly while an attack-variant tag is present. -/
theorem c1_one_state_tag :
    (∀ s : PState,
      locoCount (tagsOfState s) + attackTagCount (tagsOfState s) = 1 ∧
      locoCount (tagsOfState s) ≤ 1 ∧
      (isAttackState s = true ↔ locoCount (tagsOfState s) = 0)) ∧
    (∀ (s : PState) (i : TickInputs),
      locoCount (tagsOfState (machineNext s i)) +
        attackTagCount (tagsOfState (machineNext s i)) = 1 ∧
      locoCount (tagsOfState (machineNext s i)) ≤ 1) := by
  have h : ∀ s : PState,
      locoCount (tagsOfState s) + attackTagCount (tagsOfState s) = 1 ∧
      locoCount (tagsOfState s) ≤ 1 ∧
      (isAttackState s = true ↔ locoCount (tagsOfState s) = 0) := by
    intro s
    cases s <;> simp [tagsOfState, locoCount, attackTagCount, isAttackState]
  exact ⟨h, fun s i =>
    ⟨(h (machineNext s i)).1, (h (machineNext s i)).2.1⟩⟩

/-- Counterexample for C1 as stated: with the attack button just pressed and
the cooldown finished, the machine transitions `Idle → IdleAttack` — the
attack variants are states of the same machine, so the `Idle` tag is
removed and none of the six locomotion tags remains on the actor during the
swing, refuting "exactly one of the six locomotion tags is present at every
tick". -/
theorem c1_counterexample :
    machineNext .idle ⟨0, false, false, true, true, false, 0, 0, true⟩ =
      .idleAttack ∧
    locoCount (tagsOfState .idleAttack) = 0 := by
  constructor
  · simp [machineNext, machineTransitions, firstFiring, attackReadyTrig]
  · simp [tagsOfState, locoCount]

/-- C8: when the player's attack state changes variant mid-swing, the
`Added` attack marker re-runs `on_enter_attack_start_timer`: a fresh
`AttackTimer` with the new variant's full duration replaces the old one,
the `AttackCooldown` becomes a zero-duration timer (finished as soon as it
is next ticked), `AttackDone` is cleared; the melee bridge keeps
`MeleeAttackActive` while any attack variant is present, so neither the
`AlreadyHit` set nor the ray child is touched; and a swing whose elapsed
time plus the new variant's full duration exceeds each single variant
duration is possible. -/
theorem c8_variant_switch_continuity (prevState : PState) (c : PlayerComps)
    (hA : isAttackState c.state = true) (_hprev : isAttackState prevState = true)
    (hne : c.state ≠ prevState) :
    (on_enter_attack_start_timer prevState c).attackTimer =
      some (Timer.fromSeconds
        (attackVariantSecs c.state (c.durs.getD ⟨1/2, 1/2, 1/2, 1/2, 1/2⟩))) ∧
    (on_enter_attack_start_timer prevState c).cooldown =
      some ⟨0, 0, false⟩ ∧
    (∀ dt : ℚ, 0 ≤ dt →
      (Timer.tick ⟨0, 0, false⟩ dt).finished = true) ∧
    (on_enter_attack_start_timer prevState c).attackDone = false ∧
    bridge_attack_states_to_melee_tag true true = true ∧
    (∀ sc : SwingComps, rayMaintain true true sc = sc) ∧
    (∃ elapsed dA dB : ℚ, 0 < elapsed ∧ elapsed < dA ∧
      dA < elapsed + dB ∧ dB < elapsed + dB) := by
  refine ⟨?_, ?_, ?_, ?_, rfl, ?_, ?_⟩
  · simp [on_enter_attack_start_timer, hA, hne]
  · cases hcd : c.cooldown <;>
      simp [on_enter_attack_start_timer, hA, hne, hcd, Timer.reset,
        Timer.setDuration, Timer.fromSeconds]
  · intro dt hdt
    simp only [Timer.tick]
    rw [zero_add, min_eq_right hdt]
    simp
  · simp [on_enter_attack_start_timer, hA, hne]
  · intro sc
    simp [rayMaintain]
  · exact ⟨1/5, 1/2, 1/2, by norm_num, by norm_num, by norm_num, by norm_num⟩

/-- Witness for C8: switching `IdleAttack → WalkingAttack` 0.2 s into the
swing installs a full fresh 0.7 s walk-variant timer and the zero-duration
cooldown, for a total swing time of 0.9 s — longer than either variant's
0.5 s / 0.7 s clip. -/
theorem c8_variant_switch_continuity_witness :
    (on_enter_attack_start_timer .idleAttack
        ⟨.walkingAttack, some ⟨1/2, 1/5, false⟩, some ⟨0, 0, false⟩, false,
          some ⟨1/2, 7/10, 1/2, 1/2, 1/2⟩⟩).attackTimer =
      some (Timer.fromSeconds (7/10)) ∧
    (on_enter_attack_start_timer .idleAttack
        ⟨.walkingAttack, some ⟨1/2, 1/5, false⟩, some ⟨0, 0, false⟩, false,
          some ⟨1/2, 7/10, 1/2, 1/2, 1/2⟩⟩).cooldown = some ⟨0, 0, false⟩ := by
  have h := c8_variant_switch_continuity .idleAttack
    ⟨.walkingAttack, some ⟨1/2, 1/5, false⟩, some ⟨0, 0, false⟩, false,
      some ⟨1/2, 7/10, 1/2, 1/2, 1/2⟩⟩
    rfl rfl (by simp)
  refine ⟨?_, h.2.1⟩
  rw [h.1]
  simp [attackVariantSecs]

/-- Witness for C5: a finished 0.35 s swing timer yields the 0.60 s enemy
cooldown and the 0.15 s player cooldown, and a stun arriving mid-swing
cancels the enemy swing leaving the cooldown absent. -/
theorem c5_cooldown_witness :
    (finish_attack_when_timer_done
        ⟨.idleAttack, some ⟨35/100, 35/100, true⟩, none, false, none⟩).cooldown =
      some (Timer.fromSeconds ATTACK_COOLDOWN_S) ∧
    (attack_action .executing
        ⟨false, false, some ⟨35/100, 35/100, true⟩, none, true,
          some ⟨0, 0⟩, some true, none, none⟩).2.cooldown =
      some (Timer.fromSeconds COOLDOWN) ∧
    (attack_action .executing
        ⟨true, false, some ⟨35/100, 2/10, false⟩, none, true,
          some ⟨0, 0⟩, some true, none, none⟩).2.cooldown = none := by
  refine ⟨(c5_cooldown_on_completion_only.1 _ ⟨35/100, 35/100, true⟩ rfl rfl).1,
    (c5_cooldown_on_completion_only.2.2.2.1 _ ⟨35/100, 35/100, true⟩
      rfl rfl rfl rfl).1, ?_⟩
  exact (c5_cooldown_on_completion_only.2.2.2.2.1 _ (Or.inl rfl)).2.2.1

end Redeemer
